import Mathlib

set_option maxRecDepth 8192

/-!
Verification development for the realtime subtitle pipeline
(`audio_capture.py`, `realtime_stt.py`, `realtime_translator.py`).

Shallow embedding conventions:
* Python strings are `List Char`; `str.strip` and `str.strip('"')` are
  implemented by `pyStrip` / `stripQuotes` below.
* Python floats are modelled as exact rationals (`ℚ`).
* `collections.deque(maxlen=n)` is modelled by `dequeAppend n`.
* numpy-level signal processing (`sqrt`-based RMS, FFT magnitudes) is
  abstracted: a `Frame` carries its RMS energy and its band/total spectral
  energies as given rational attributes, since the code consults the samples
  only through these three scalars in `detect_voice_activity`.
* External ML engines (`model.generate` + decode in the translator, Whisper
  `model.transcribe` in the STT stage, `hashlib.md5` keying) are oracles.
  An engine oracle returns `none` when the library call raises.  The md5
  content hash is abstracted to the identity keying function (deterministic
  and collision-free, as the code assumes), so the cache is keyed directly
  by the normalized text.
* States carry instrumentation counters (`engineCalls`, `modelCalls`)
  counting engine invocations; they influence nothing.
* Wall-clock timing instrumentation (`translation_times`,
  `processing_times`) is omitted: it never affects control flow or results.
-/

/-- Python `str` whitespace (the ASCII whitespace characters stripped by
`str.strip()`). -/
def isPyWs (c : Char) : Bool :=
  c = ' ' ∨ c = '\t' ∨ c = '\n' ∨ c = '\r' ∨ c = '\x0b' ∨ c = '\x0c'

/-- Remove the characters satisfying `p` from both ends of a list, the way
Python `str.strip(chars)` does. -/
def stripWith (p : Char → Bool) (l : List Char) : List Char :=
  List.rdropWhile p (List.dropWhile p l)

/-- Python `text.strip()`. -/
def pyStrip (l : List Char) : List Char :=
  stripWith isPyWs l

/-- Python `text.strip('"')`. -/
def stripQuotes (l : List Char) : List Char :=
  stripWith (fun c => c = '"') l

/-- Python `int(q)` for the nonnegative rationals that occur in this code
(truncation towards zero, which is the floor on nonnegative input). -/
def pyInt (q : ℚ) : Nat :=
  ⌊q⌋.toNat

/-- `collections.deque(maxlen := maxlen)` append: the new element goes to the
back and the oldest elements are evicted from the front once the length
exceeds `maxlen`. -/
def dequeAppend {α : Type} (maxlen : Nat) (buf : List α) (x : α) : List α :=
  let b := buf ++ [x]
  if maxlen < b.length then b.drop (b.length - maxlen) else b

/-- Python negative-index slice `l[-n:]`: the last `n` elements (the whole
list when `n` exceeds the length). -/
def pySliceLast {α : Type} (n : Nat) (l : List α) : List α :=
  l.drop (l.length - n)

/-- Does `pat` occur at the start of `l`?  Python `s.startswith`. -/
def pyStartsWith : List Char → List Char → Bool
  | [], _ => true
  | _ :: _, [] => false
  | a :: as, b :: bs => a == b && pyStartsWith as bs

/-- Split `hay` at the first occurrence of `pat`: `some (before, after)` when
`pat` occurs, `none` otherwise.  Models Python `hay.split(pat, 1)` together
with the `pat in hay` membership test. -/
def pySplitFirst (pat : List Char) : List Char → Option (List Char × List Char)
  | [] => if pyStartsWith pat [] then some ([], []) else none
  | c :: cs =>
    if pyStartsWith pat (c :: cs) then some ([], (c :: cs).drop pat.length)
    else
      match pySplitFirst pat cs with
      | some (a, b) => some (c :: a, b)
      | none => none

/-- Python substring membership `pat in hay`. -/
def pyContains (pat hay : List Char) : Bool :=
  (pySplitFirst pat hay).isSome

/-- Python `s.lower()` (character-wise lowering). -/
def pyLower (l : List Char) : List Char :=
  l.map Char.toLower

/-! ## `audio_capture.py` -/

/-- `AudioCaptureConfig` (`audio_capture.py`). -/
structure AudioCaptureConfig where
  sample_rate : Nat
  chunk_size : Nat
  buffer_duration : ℚ
  silence_threshold : ℚ
  min_speech_duration : ℚ
  max_silence_duration : ℚ

/-- The defaults set in `AudioCaptureConfig.__init__`:
16000 Hz, 1024-sample chunks, 5.0 s buffer, 0.005 silence threshold,
0.3 s minimum speech, 2.0 s maximum silence. -/
def defaultAudioCaptureConfig : AudioCaptureConfig where
  sample_rate := 16000
  chunk_size := 1024
  buffer_duration := 5
  silence_threshold := 1 / 200
  min_speech_duration := 3 / 10
  max_silence_duration := 2

/-- `buffer_size = int(buffer_duration * sample_rate / chunk_size)`
(`ChromeAudioCapture.__init__`, the `maxlen` of `audio_buffer`). -/
def bufferCapacity (cfg : AudioCaptureConfig) : Nat :=
  pyInt (cfg.buffer_duration * (cfg.sample_rate : ℚ) / (cfg.chunk_size : ℚ))

/-- The acoustic attributes of one captured frame through which
`detect_voice_activity` consults the samples: RMS energy, summed squared
spectral magnitude over the 300 - 3400 Hz band, and over the full spectrum. -/
structure Frame where
  rms : ℚ
  speech_energy : ℚ
  total_energy : ℚ

/-- The mutable VAD fields of `ChromeAudioCapture`: `noise_buffer`
(a 50-deep deque of RMS values) and `adaptive_threshold`. -/
structure NoiseState where
  noise_buffer : List ℚ
  adaptive_threshold : ℚ
deriving DecidableEq

/-- Initial VAD state from `ChromeAudioCapture.__init__`: empty noise buffer,
adaptive threshold seeded with the static silence threshold. -/
def initNoiseState (cfg : AudioCaptureConfig) : NoiseState where
  noise_buffer := []
  adaptive_threshold := cfg.silence_threshold

/-- The `1e-10` epsilon guarding the spectral-ratio division. -/
def vadEps : ℚ := 1 / 10000000000

/-- `detect_voice_activity` (`audio_capture.py` lines 118-151): append the
frame's RMS to the 50-deep noise deque; once the deque holds at least 10
values set `adaptive_threshold = max(silence_threshold, 2 * average of the
first 10 entries of the deque)`; classify as speech iff the RMS exceeds the
adaptive threshold and the speech-band spectral ratio exceeds 0.1. -/
def detect_voice_activity (cfg : AudioCaptureConfig) (s : NoiseState)
    (f : Frame) : Bool × NoiseState :=
  let nb := dequeAppend 50 s.noise_buffer f.rms
  let thr :=
    if 10 ≤ nb.length then
      max cfg.silence_threshold ((nb.take 10).sum / 10 * 2)
    else s.adaptive_threshold
  let s' : NoiseState := ⟨nb, thr⟩
  if f.rms > thr then
    (decide (f.speech_energy / (f.total_energy + vadEps) > 1 / 10), s')
  else (false, s')

/-- Fold `detect_voice_activity` over a run of frames that all carry the given
RMS values (spectral attributes irrelevant to the threshold evolution),
starting from a given VAD state. -/
def runDetect (cfg : AudioCaptureConfig) (s : NoiseState) (rs : List ℚ) :
    NoiseState :=
  rs.foldl (fun st r => (detect_voice_activity cfg st ⟨r, 0, 0⟩).2) s

/-- `get_audio_segment` (`audio_capture.py` lines 153-167): return the
concatenation of the most recent `min(int(duration * sample_rate /
chunk_size), len(buffer))` chunks, `none` on an empty buffer or a zero chunk
count. -/
def get_audio_segment (cfg : AudioCaptureConfig) (buf : List (List ℚ))
    (duration_seconds : ℚ) : Option (List ℚ) :=
  if buf = [] then none
  else
    let chunks_needed :=
      min (pyInt (duration_seconds * (cfg.sample_rate : ℚ) / (cfg.chunk_size : ℚ)))
        buf.length
    if chunks_needed = 0 then none
    else some ((buf.drop (buf.length - chunks_needed)).flatten)

/-- The segmentation fields of `ChromeAudioCapture`: `is_speaking`,
`speech_start_time`, `last_speech_time`, `silence_start_time`. -/
structure SegState where
  is_speaking : Bool
  speech_start_time : Option ℚ
  last_speech_time : Option ℚ
  silence_start_time : Option ℚ
deriving DecidableEq

/-- Initial segmentation state from `ChromeAudioCapture.__init__`. -/
def initSegState : SegState where
  is_speaking := false
  speech_start_time := none
  last_speech_time := none
  silence_start_time := none

/-- The speech/silence state machine of `audio_callback`
(`audio_capture.py` lines 185-221), driven by one VAD decision and the frame
timestamp.  Returns the new state and whether a speech segment is emitted
(the `on_speech_ended` dispatch).  In the source `speech_start_time` is
always set while `is_speaking` holds; the `getD 0` default is unreachable
there (a `None` would raise). -/
def segStep (cfg : AudioCaptureConfig) (s : SegState) (has_speech : Bool)
    (now : ℚ) : SegState × Bool :=
  if has_speech then
    let s1 := { s with last_speech_time := some now }
    if ¬ s1.is_speaking then
      ({ s1 with is_speaking := true, speech_start_time := some now,
                 silence_start_time := none }, false)
    else (s1, false)
  else
    if s.is_speaking then
      let sil := s.silence_start_time.getD now
      let s1 := { s with silence_start_time := some sil }
      let silence_duration := now - sil
      if silence_duration ≥ cfg.max_silence_duration then
        if now - s1.speech_start_time.getD 0 ≥ cfg.min_speech_duration then
          ({ s1 with is_speaking := false, silence_start_time := none }, true)
        else (s1, false)
      else (s1, false)
    else (s, false)

/-! ## `realtime_stt.py` -/

/-- `RealtimeSTTConfig` (`realtime_stt.py`): the fields consulted by
`_filter_transcription` and `_transcribe_audio`. -/
structure RealtimeSTTConfig where
  sample_rate : Nat
  min_audio_length : ℚ
  max_audio_length : ℚ
  suppress_tokens : List (List Char)

/-- The defaults set in `RealtimeSTTConfig.__init__` (no `config.json`
present): 16000 Hz, 1.0 s minimum, 10.0 s maximum, and the literal
suppression token list. -/
def defaultSTTConfig : RealtimeSTTConfig where
  sample_rate := 16000
  min_audio_length := 1
  max_audio_length := 10
  suppress_tokens :=
    ["Thank you".toList, "Thanks for".toList, "ubscribe".toList,
     "my channel".toList, "for watching".toList, "Amara".toList,
     "視聴".toList, "ご視聴".toList]

/-- The mutable fields of `RealtimeSTT` that `_transcribe_audio` and
`_filter_transcription` touch: `last_result`, whether `self.model` is
loaded, and an instrumentation counter of `model.transcribe` calls. -/
structure STTState where
  last_result : List Char
  model_loaded : Bool
  model_calls : Nat
deriving DecidableEq

/-- `_filter_transcription` (`realtime_stt.py` lines 154-171): drop empty or
short texts, drop texts containing a suppression token (case-insensitive
substring test), drop a text equal to the previous accepted result, and
otherwise accept it and remember it in `last_result`. -/
def filter_transcription (cfg : RealtimeSTTConfig) (s : STTState)
    (text : List Char) : List Char × STTState :=
  if text = [] ∨ (pyStrip text).length < 2 then ([], s)
  else
    let t := pyStrip text
    if cfg.suppress_tokens.any (fun tok => pyContains (pyLower tok) (pyLower t))
    then ([], s)
    else if t = s.last_result then ([], s)
    else (t, { s with last_result := t })

/-- `int(max_audio_length * sample_rate)`: the sample count kept when a
segment is truncated. -/
def maxSamples (cfg : RealtimeSTTConfig) : Nat :=
  pyInt (cfg.max_audio_length * (cfg.sample_rate : ℚ))

/-- `_transcribe_audio` (`realtime_stt.py` lines 173-214).  `whisper` is the
oracle for `model.transcribe` followed by `result["text"]`; `none` models the
library raising (the `except` branch returns `""`).  A `none` overall result
models the `RuntimeError` raised when the model is not loaded.  Segments
shorter than `min_audio_length` return `""` before the model is consulted;
longer than `max_audio_length`, only the trailing `int(max_audio_length *
sample_rate)` samples are passed to the model. -/
def transcribe_audio (cfg : RealtimeSTTConfig)
    (whisper : List ℚ → Option (List Char)) (s : STTState)
    (audio_data : List ℚ) : Option (List Char × STTState) :=
  if s.model_loaded then
    let duration : ℚ := (audio_data.length : ℚ) / (cfg.sample_rate : ℚ)
    if duration < cfg.min_audio_length then some ([], s)
    else
      let audio :=
        if duration > cfg.max_audio_length then
          pySliceLast (maxSamples cfg) audio_data
        else audio_data
      let s1 := { s with model_calls := s.model_calls + 1 }
      match whisper audio with
      | none => some ([], s1)
      | some raw => some (filter_transcription cfg s1 (pyStrip raw))
  else none

/-! ## `realtime_translator.py` -/

/-- `RealtimeTranslatorConfig` (`realtime_translator.py`): the fields
consulted by `translate_text`. -/
structure RealtimeTranslatorConfig where
  min_text_length : Nat
  max_text_length : Nat
  skip_duplicates : Bool
  use_cache : Bool

/-- The defaults set in `RealtimeTranslatorConfig.__init__`:
`min_text_length = 2`, `max_text_length = 500`, duplicates skipped,
cache enabled. -/
def defaultTranslatorConfig : RealtimeTranslatorConfig where
  min_text_length := 2
  max_text_length := 500
  skip_duplicates := true
  use_cache := true

/-- The mutable fields of `RealtimeTranslator` that `translate_text`
touches: the cache (keyed by the normalized text, the md5 digest being
abstracted to an injective keying), `last_translated_text`, the hit and miss
counters, whether the model is loaded, and an instrumentation counter of
generation calls. -/
structure TranslatorState where
  translation_cache : List (List Char × List Char)
  last_translated_text : List Char
  cache_hits : Nat
  cache_misses : Nat
  model_loaded : Bool
  engine_calls : Nat
deriving DecidableEq

/-- The normalization `translate_text` applies before anything else: strip
whitespace, then truncate the stripped text to `max_text_length`
characters. -/
def normText (cfg : RealtimeTranslatorConfig) (text : List Char) : List Char :=
  let t0 := pyStrip text
  if cfg.max_text_length < t0.length then t0.take cfg.max_text_length else t0

/-- The post-processing `translate_text` applies to the decoded generation
output: if the input text occurs in the output, keep only what follows its
first occurrence (stripped); then strip whitespace, strip double quotes, and
strip whitespace again. -/
def postprocessOutput (text out_text : List Char) : List Char :=
  let o1 :=
    match pySplitFirst text out_text with
    | some (_, after) => pyStrip after
    | none => out_text
  pyStrip (stripQuotes (pyStrip o1))

/-- The part of `translate_text` that runs on the normalized text `t`
(everything after the early length return, `realtime_translator.py` lines
166-245): duplicate filter, cache lookup, miss counting, the `RuntimeError`
when the model is missing (the overall `none`), engine invocation, output
post-processing, cache write, and the fallback that returns the input text
when generation raises. -/
def translateBody (cfg : RealtimeTranslatorConfig)
    (engine : List Char → Option (List Char)) (s : TranslatorState)
    (t : List Char) : Option (List Char × TranslatorState) :=
  if cfg.skip_duplicates ∧ t = s.last_translated_text then some ([], s)
  else
    match (if cfg.use_cache then List.lookup t s.translation_cache else none) with
    | some v =>
      some (v, { s with cache_hits := s.cache_hits + 1,
                        last_translated_text := t })
    | none =>
      let s1 := { s with cache_misses := s.cache_misses + 1 }
      if s1.model_loaded then
        let s2 := { s1 with engine_calls := s1.engine_calls + 1 }
        match engine t with
        | none => some (t, s2)
        | some raw =>
          let out_text := postprocessOutput t raw
          let s3 :=
            if cfg.use_cache then
              { s2 with translation_cache := (t, out_text) :: s2.translation_cache }
            else s2
          some (out_text, { s3 with last_translated_text := t })
      else none

/-- `translate_text` (`realtime_translator.py` lines 155-245): return `""`
for an empty or too-short text, otherwise normalize the text and run
`translateBody` on it.  The cache-write guard `if use_cache and cache_key`
in the source is equivalent to `use_cache` alone because the md5 hex digest
is always a nonempty (truthy) string. -/
def translate_text (cfg : RealtimeTranslatorConfig)
    (engine : List Char → Option (List Char)) (s : TranslatorState)
    (text : List Char) : Option (List Char × TranslatorState) :=
  if text = [] ∨ (pyStrip text).length < cfg.min_text_length then some ([], s)
  else translateBody cfg engine s (normText cfg text)

/-! ## Helper lemmas -/

/-- Left-stripping is already complete on a stripped list. -/
lemma dropWhile_stripWith (p : Char → Bool) (l : List Char) :
    List.dropWhile p (stripWith p l) = stripWith p l := by
  have hm : List.dropWhile p (List.dropWhile p l) = List.dropWhile p l :=
    List.dropWhile_idempotent p l
  set m := List.dropWhile p l with hmdef
  obtain ⟨t, ht⟩ := List.dropWhile_suffix (l := m.reverse) p
  have h2 := congrArg List.reverse ht
  simp only [List.reverse_append, List.reverse_reverse] at h2
  have hdecomp : m = List.rdropWhile p m ++ t.reverse := by
    rw [List.rdropWhile]
    exact h2.symm
  show List.dropWhile p (List.rdropWhile p m) = List.rdropWhile p m
  cases hr : List.rdropWhile p m with
  | nil => simp
  | cons a as =>
    have hcons : m = a :: (as ++ t.reverse) := by
      rw [hdecomp, hr]; simp
    have hm' := hm
    rw [hcons] at hm'
    have ha : ¬ p a := by
      intro hpa
      rw [List.dropWhile_cons, if_pos hpa] at hm'
      obtain ⟨u, hu⟩ := List.dropWhile_suffix (l := as ++ t.reverse) p
      rw [hm'] at hu
      have hlen := congrArg List.length hu
      simp only [List.length_append, List.length_cons] at hlen
      omega
    simp [List.dropWhile_cons, ha]

/-- Python `strip` is idempotent. -/
lemma stripWith_idem (p : Char → Bool) (l : List Char) :
    stripWith p (stripWith p l) = stripWith p l := by
  have h1 : stripWith p (stripWith p l)
      = List.rdropWhile p (stripWith p l) := by
    rw [stripWith, dropWhile_stripWith]
  rw [h1, stripWith, List.rdropWhile_idempotent]

lemma pyStrip_idem (l : List Char) : pyStrip (pyStrip l) = pyStrip l :=
  stripWith_idem isPyWs l

/-- A run of `n` silent frames (RMS 0), used to exercise the VAD threshold. -/
def zeroRun : Nat → List ℚ
  | 0 => []
  | n + 1 => 0 :: zeroRun n

/-! ## Claims -/

/-- C4: `detect_voice_activity` returns non-speech for every frame whose RMS
energy is at most the (just-updated) adaptive threshold; when the RMS exceeds
it, the frame is classified as speech iff the summed squared spectral
magnitude over the 300-3400 Hz band divided by the total spectral energy plus
epsilon exceeds 0.1. -/
theorem c4_energy_gate_and_spectral_ratio (cfg : AudioCaptureConfig)
    (s : NoiseState) (f : Frame) (b : Bool) (s' : NoiseState)
    (h : detect_voice_activity cfg s f = (b, s')) :
    (f.rms ≤ s'.adaptive_threshold → b = false) ∧
    (f.rms > s'.adaptive_threshold →
      (b = true ↔ f.speech_energy / (f.total_energy + vadEps) > 1 / 10)) := by
  simp only [detect_voice_activity] at h
  split_ifs at h with h10 hgt hgt <;> cases h
  · exact ⟨fun hle => absurd hgt (not_lt.mpr hle), fun _ => by simp⟩
  · exact ⟨fun _ => rfl, fun hgt2 => absurd hgt2 hgt⟩
  · exact ⟨fun hle => absurd hgt (not_lt.mpr hle), fun _ => by simp⟩
  · exact ⟨fun _ => rfl, fun hgt2 => absurd hgt2 hgt⟩

/-- Witness for C4 at concrete frames: a frame with RMS 0 against threshold
1/200 is non-speech; a frame with RMS 1 and pure speech-band energy against
the same state is speech. -/
theorem c4_witness :
    ((0 : ℚ) ≤ ((detect_voice_activity defaultAudioCaptureConfig
        ⟨[], 1/200⟩ ⟨0, 0, 0⟩).2).adaptive_threshold ∧
      (detect_voice_activity defaultAudioCaptureConfig
        ⟨[], 1/200⟩ ⟨0, 0, 0⟩).1 = false) ∧
    ((1 : ℚ) > ((detect_voice_activity defaultAudioCaptureConfig
        ⟨[], 1/200⟩ ⟨1, 1, 0⟩).2).adaptive_threshold ∧
      ((detect_voice_activity defaultAudioCaptureConfig
        ⟨[], 1/200⟩ ⟨1, 1, 0⟩).1 = true ↔
        (1 : ℚ) / ((0 : ℚ) + vadEps) > 1 / 10)) := by
  have e1 : detect_voice_activity defaultAudioCaptureConfig
      ⟨[], 1/200⟩ ⟨0, 0, 0⟩ =
      ((detect_voice_activity defaultAudioCaptureConfig
        ⟨[], 1/200⟩ ⟨0, 0, 0⟩).1,
       (detect_voice_activity defaultAudioCaptureConfig
        ⟨[], 1/200⟩ ⟨0, 0, 0⟩).2) := rfl
  have e2 : detect_voice_activity defaultAudioCaptureConfig
      ⟨[], 1/200⟩ ⟨1, 1, 0⟩ =
      ((detect_voice_activity defaultAudioCaptureConfig
        ⟨[], 1/200⟩ ⟨1, 1, 0⟩).1,
       (detect_voice_activity defaultAudioCaptureConfig
        ⟨[], 1/200⟩ ⟨1, 1, 0⟩).2) := rfl
  have h1 := c4_energy_gate_and_spectral_ratio defaultAudioCaptureConfig
    ⟨[], 1/200⟩ ⟨0, 0, 0⟩ _ _ e1
  have h2 := c4_energy_gate_and_spectral_ratio defaultAudioCaptureConfig
    ⟨[], 1/200⟩ ⟨1, 1, 0⟩ _ _ e2
  have t1 : ((detect_voice_activity defaultAudioCaptureConfig
      ⟨[], 1/200⟩ ⟨0, 0, 0⟩).2).adaptive_threshold = 1/200 := by
    norm_num [detect_voice_activity, dequeAppend]
  have t2 : ((detect_voice_activity defaultAudioCaptureConfig
      ⟨[], 1/200⟩ ⟨1, 1, 0⟩).2).adaptive_threshold = 1/200 := by
    norm_num [detect_voice_activity, dequeAppend, defaultAudioCaptureConfig,
      max_def, vadEps]
  refine ⟨⟨?_, ?_⟩, ⟨?_, ?_⟩⟩
  · rw [t1]; norm_num
  · exact h1.1 (by rw [t1]; norm_num)
  · rw [t2]; norm_num
  · exact h2.2 (by rw [t2]; norm_num)

/-- C3: in the Speaking state, on a silent frame whose silence duration has
reached `max_silence_duration` but whose elapsed time since `speech_start_time`
is still below `min_speech_duration`, `segStep` emits nothing and leaves the
state untouched (still Speaking, `silence_start_time` still set); on a later
silent frame where the elapsed speech time has reached `min_speech_duration`
(no new speech frame needed), it emits a segment and returns to Idle; and on
a silent frame while Idle it does nothing. -/
theorem c3_short_speech_then_silence (cfg : AudioCaptureConfig) (s : SegState)
    (s0 u now now2 : ℚ) :
    (s.is_speaking = true → s.speech_start_time = some s0 →
      s.silence_start_time = some u →
      cfg.max_silence_duration ≤ now - u →
      now - s0 < cfg.min_speech_duration →
      segStep cfg s false now = (s, false)) ∧
    (s.is_speaking = true → s.speech_start_time = some s0 →
      s.silence_start_time = some u →
      cfg.max_silence_duration ≤ now2 - u →
      cfg.min_speech_duration ≤ now2 - s0 →
      segStep cfg s false now2 =
        ({ s with is_speaking := false, silence_start_time := none }, true)) ∧
    (s.is_speaking = false → ∀ t : ℚ, segStep cfg s false t = (s, false)) := by
  obtain ⟨sp, st, lt, si⟩ := s
  refine ⟨?_, ?_, ?_⟩
  · rintro rfl h1 h2 hmax hmin
    simp only at h1 h2
    subst h1 h2
    simp [segStep, ge_iff_le, hmax, not_le.mpr hmin]
  · rintro rfl h1 h2 hmax hmin
    simp only at h1 h2
    subst h1 h2
    simp [segStep, ge_iff_le, hmax, hmin]
  · rintro rfl t
    simp [segStep]

/-- Witness for C3: with `min_speech_duration = 5` and
`max_silence_duration = 2`, speech starting at time 0 and silence starting at
time 1: at time 3 (silence 2 s, speech run 3 s < 5 s) nothing is emitted and
the state is unchanged; at time 5 (speech run 5 s) the segment is emitted and
the machine goes Idle; a silent frame while Idle is a no-op. -/
theorem c3_witness :
    segStep ⟨16000, 1024, 5, 1/200, 5, 2⟩
        ⟨true, some 0, some 0, some 1⟩ false 3 =
      (⟨true, some 0, some 0, some 1⟩, false) ∧
    segStep ⟨16000, 1024, 5, 1/200, 5, 2⟩
        ⟨true, some 0, some 0, some 1⟩ false 5 =
      (⟨false, some 0, some 0, none⟩, true) ∧
    segStep ⟨16000, 1024, 5, 1/200, 5, 2⟩
        ⟨false, none, none, none⟩ false 7 =
      (⟨false, none, none, none⟩, false) := by
  have h := c3_short_speech_then_silence ⟨16000, 1024, 5, 1/200, 5, 2⟩
    ⟨true, some 0, some 0, some 1⟩ 0 1 3 5
  have h3 := c3_short_speech_then_silence ⟨16000, 1024, 5, 1/200, 5, 2⟩
    ⟨false, none, none, none⟩ 0 1 3 5
  exact ⟨h.1 rfl rfl rfl (by norm_num) (by norm_num),
         h.2.1 rfl rfl rfl (by norm_num) (by norm_num),
         h3.2.2 rfl 7⟩

/-- C2: the adaptive-threshold baseline is NOT fixed after warm-up.  Running
`detect_voice_activity` from the initial state over 50 frames whose RMS
values are 0.1 followed by forty-nine 0s leaves the threshold at
`max(silence_threshold, 2 * average of the first 10 RMS values ever
collected) = max(1/200, 2 * (1/100)) = 1/50`, as the claim states; but one
further silent frame makes the 50-deep noise deque evict the very first
sample, and the code recomputes the baseline from the first 10 entries of
the slid window, dropping the threshold to `1/200`.  The claim (and the
code's own comment, which calls the quantity the average of the initial 10
samples) says the threshold stays at 1/50 for the remainder of the run. -/
theorem c2_threshold_drifts_after_eviction :
    (runDetect defaultAudioCaptureConfig (initNoiseState defaultAudioCaptureConfig)
        ((1/10 : ℚ) :: zeroRun 49)).adaptive_threshold =
      max defaultAudioCaptureConfig.silence_threshold
        ((((1/10 : ℚ) :: zeroRun 49).take 10).sum / 10 * 2) ∧
    max defaultAudioCaptureConfig.silence_threshold
        ((((1/10 : ℚ) :: zeroRun 49).take 10).sum / 10 * 2) = 1/50 ∧
    (runDetect defaultAudioCaptureConfig (initNoiseState defaultAudioCaptureConfig)
        (((1/10 : ℚ) :: zeroRun 49) ++ [0])).adaptive_threshold = 1/200 ∧
    (1/50 : ℚ) ≠ 1/200 := by
  refine ⟨?_, ?_, ?_, ?_⟩ <;>
    norm_num [runDetect, detect_voice_activity, dequeAppend, vadEps, max_def,
      zeroRun, initNoiseState, defaultAudioCaptureConfig]

/-- With the default configuration the deque capacity is
`int(5.0 * 16000 / 1024) = int(78.125) = 78`. -/
lemma bufferCapacity_default : bufferCapacity defaultAudioCaptureConfig = 78 := by
  show (⌊(5 : ℚ) * (16000 : ℚ) / (1024 : ℚ)⌋).toNat = 78
  rw [show ⌊(5 : ℚ) * (16000 : ℚ) / (1024 : ℚ)⌋ = 78 by norm_num]
  rfl

/-- C5 counterexample: the buffer capacity is computed with Python `int`
truncation, `int(5.0 * 16000 / 1024) = 78`, not with the ceiling
`⌈5.0 * 16000 / 1024⌉ = 79` the claim states; appending 79 frames to an
empty buffer leaves only 78 of them (the oldest was evicted before the
claimed capacity was ever reached). -/
theorem c5_counterexample :
    bufferCapacity defaultAudioCaptureConfig = 78 ∧
    (⌈defaultAudioCaptureConfig.buffer_duration *
        (defaultAudioCaptureConfig.sample_rate : ℚ) /
        (defaultAudioCaptureConfig.chunk_size : ℚ)⌉ : ℤ) = 79 ∧
    ((78 : ℤ) ≠ 79) ∧
    ((List.range 79).foldl
        (fun l i => dequeAppend (bufferCapacity defaultAudioCaptureConfig) l i)
        ([] : List Nat)).length = 78 := by
  have hcap := bufferCapacity_default
  refine ⟨hcap, ?_, by norm_num, ?_⟩
  · show (⌈(5 : ℚ) * (16000 : ℚ) / (1024 : ℚ)⌉ : ℤ) = 79
    rw [Int.ceil_eq_iff]
    constructor <;> norm_num
  · rw [hcap]
    norm_num [dequeAppend, List.range_succ]

/-- C5 amended: with the capacity the code actually computes
(`int`-truncation, 78 by default), the deque append preserves
`length ≤ capacity`, appending to a buffer at capacity evicts exactly the
oldest frame, and `get_audio_segment` returns the concatenation of a suffix
of the buffer (the most recent frames) holding never more than the requested
duration of samples. -/
theorem c5_ring_buffer (cfg : AudioCaptureConfig) :
    (∀ (α : Type) (l : List α) (x : α),
      l.length ≤ bufferCapacity cfg →
      (dequeAppend (bufferCapacity cfg) l x).length ≤ bufferCapacity cfg) ∧
    (∀ (α : Type) (l : List α) (x : α),
      l.length = bufferCapacity cfg → 0 < bufferCapacity cfg →
      dequeAppend (bufferCapacity cfg) l x = l.drop 1 ++ [x]) ∧
    (∀ (buf : List (List ℚ)) (dur : ℚ) (out : List ℚ),
      0 < cfg.chunk_size → 0 ≤ dur →
      (∀ f ∈ buf, f.length = cfg.chunk_size) →
      get_audio_segment cfg buf dur = some out →
      (out.length : ℚ) ≤ dur * (cfg.sample_rate : ℚ) ∧
        ∃ k, out = (buf.drop k).flatten) := by
  refine ⟨?_, ?_, ?_⟩
  · intro α l x hlen
    simp only [dequeAppend, List.length_append, List.length_singleton]
    split
    · simp only [List.length_drop, List.length_append, List.length_singleton]
      omega
    · simp only [List.length_append, List.length_singleton]
      omega
  · intro α l x hlen hpos
    simp only [dequeAppend, List.length_append, List.length_singleton]
    rw [if_pos (by omega)]
    have h1 : l.length + 1 - bufferCapacity cfg = 1 := by omega
    rw [h1, List.drop_append_of_le_length (by omega)]
  · intro buf dur out hchunk hdur hframes hseg
    simp only [get_audio_segment] at hseg
    split at hseg
    · exact absurd hseg (by simp)
    next hbuf =>
      split at hseg
      · exact absurd hseg (by simp)
      next hne =>
        set q : ℚ := dur * (cfg.sample_rate : ℚ) / (cfg.chunk_size : ℚ) with hq
        set needed := min (pyInt q) buf.length with hneed
        have hout : out = (buf.drop (buf.length - needed)).flatten := by
          exact (Option.some.injEq _ _ ▸ hseg).symm
        constructor
        · have hlen : out.length = needed * cfg.chunk_size := by
            rw [hout, List.length_flatten]
            have hmap : ∀ f ∈ buf.drop (buf.length - needed),
                f.length = cfg.chunk_size := by
              intro f hf
              exact hframes f (List.drop_subset _ _ hf)
            have hdroplen : (buf.drop (buf.length - needed)).length = needed := by
              rw [List.length_drop]
              omega
            calc ((buf.drop (buf.length - needed)).map List.length).sum
                = ((buf.drop (buf.length - needed)).map
                    (fun _ => cfg.chunk_size)).sum := by
                  apply congrArg
                  exact List.map_congr_left hmap
              _ = needed * cfg.chunk_size := by
                  rw [List.map_const', hdroplen, List.sum_replicate, smul_eq_mul]
          rw [hlen]
          have hq0 : 0 ≤ q := by
            rw [hq]
            positivity
          have hple : ((pyInt q : ℚ)) ≤ q := by
            show ((⌊q⌋.toNat : ℚ)) ≤ q
            rw [show ((⌊q⌋.toNat : ℚ)) = ((⌊q⌋.toNat : ℤ) : ℚ) by push_cast; ring]
            rw [Int.toNat_of_nonneg (Int.floor_nonneg.mpr hq0)]
            exact Int.floor_le q
          have hneedle : ((needed : ℚ)) ≤ q := by
            calc ((needed : ℚ)) ≤ (pyInt q : ℚ) := by
                  exact_mod_cast Nat.cast_le.mpr (min_le_left _ _)
              _ ≤ q := hple
          have hcast : ((needed * cfg.chunk_size : ℕ) : ℚ)
              = (needed : ℚ) * (cfg.chunk_size : ℚ) := by push_cast; ring
          rw [hcast]
          have hchunkq : (0 : ℚ) < (cfg.chunk_size : ℚ) := by
            exact_mod_cast hchunk
          calc (needed : ℚ) * (cfg.chunk_size : ℚ)
              ≤ q * (cfg.chunk_size : ℚ) := by
                exact mul_le_mul_of_nonneg_right hneedle (le_of_lt hchunkq)
            _ = dur * (cfg.sample_rate : ℚ) := by
                rw [hq]
                field_simp
        · exact ⟨buf.length - needed, hout⟩

/-- Witness for C5 at concrete buffers: appending to an empty buffer keeps
the length within capacity; appending to a buffer holding 78 frames evicts
the oldest; extracting 1 second from a one-chunk buffer returns that chunk,
within the requested duration. -/
theorem c5_witness :
    (dequeAppend (bufferCapacity defaultAudioCaptureConfig)
        ([] : List Nat) 0).length ≤ bufferCapacity defaultAudioCaptureConfig ∧
    dequeAppend (bufferCapacity defaultAudioCaptureConfig)
        (List.replicate 78 (0 : Nat)) 5 =
      (List.replicate 78 (0 : Nat)).drop 1 ++ [5] ∧
    ((List.replicate 1024 (0 : ℚ)).length : ℚ) ≤
      1 * (defaultAudioCaptureConfig.sample_rate : ℚ) ∧
    ∃ k, List.replicate 1024 (0 : ℚ) =
      (([List.replicate 1024 (0 : ℚ)]).drop k).flatten := by
  obtain ⟨h1, h2, h3⟩ := c5_ring_buffer defaultAudioCaptureConfig
  have h15 : pyInt ((1 : ℚ) * (defaultAudioCaptureConfig.sample_rate : ℚ) /
      (defaultAudioCaptureConfig.chunk_size : ℚ)) = 15 := by
    show (⌊(1 : ℚ) * ((16000 : ℕ) : ℚ) / ((1024 : ℕ) : ℚ)⌋).toNat = 15
    rw [show ⌊(1 : ℚ) * ((16000 : ℕ) : ℚ) / ((1024 : ℕ) : ℚ)⌋ = 15 by norm_num]
    rfl
  have hseg : get_audio_segment defaultAudioCaptureConfig
      [List.replicate 1024 (0 : ℚ)] 1 = some (List.replicate 1024 (0 : ℚ)) := by
    simp only [get_audio_segment, h15, List.length_singleton]
    rw [if_neg (by simp), if_neg (by norm_num)]
    rw [show min (15 : ℕ) 1 = 1 from rfl, show (1 : ℕ) - 1 = 0 from rfl,
      List.drop_zero]
    rw [show ([List.replicate 1024 (0 : ℚ)]).flatten
        = List.replicate 1024 (0 : ℚ) by simp only [List.flatten_cons,
          List.flatten_nil, List.append_nil]]
  have hframes : ∀ f ∈ [List.replicate 1024 (0 : ℚ)],
      f.length = defaultAudioCaptureConfig.chunk_size := by
    intro f hf
    simp only [List.mem_singleton] at hf
    subst hf
    simp only [List.length_replicate]
    rfl
  obtain ⟨ha, hb⟩ := h3 [List.replicate 1024 (0 : ℚ)] 1
    (List.replicate 1024 (0 : ℚ))
    (by norm_num [defaultAudioCaptureConfig]) (by norm_num)
    hframes hseg
  exact ⟨h1 Nat [] 0 (by simp),
         h2 Nat (List.replicate 78 0) 5 (by simp [bufferCapacity_default])
           (by rw [bufferCapacity_default]; norm_num),
         ha, hb⟩

/-- On a loaded model and a never-failing engine, `translateBody` always
succeeds, and the resulting state records the processed text as
`last_translated_text` and keeps the model loaded. -/
lemma translateBody_total (cfg : RealtimeTranslatorConfig)
    (e : List Char → Option (List Char)) (s : TranslatorState) (t : List Char)
    (hml : s.model_loaded = true) (he : (e t).isSome = true) :
    ∃ r1 s1, translateBody cfg e s t = some (r1, s1) ∧
      s1.last_translated_text = t ∧ s1.model_loaded = true := by
  by_cases hd : cfg.skip_duplicates = true ∧ t = s.last_translated_text
  · exact ⟨[], s, by simp only [translateBody, if_pos hd], hd.2.symm, hml⟩
  · simp only [translateBody, if_neg hd]
    cases hc : (if cfg.use_cache then List.lookup t s.translation_cache
        else none) with
    | some v => exact ⟨v, _, rfl, rfl, hml⟩
    | none =>
      rw [if_pos hml]
      cases hee : e t with
      | none => rw [hee] at he; simp at he
      | some raw =>
        refine ⟨_, _, rfl, rfl, ?_⟩
        by_cases hu : cfg.use_cache = true <;> simp only [if_pos, if_neg, hu,
          if_true, if_false, Bool.false_eq_true] <;> exact hml

/-- With duplicate skipping on, `translateBody` on the previous
`last_translated_text` is discarded: empty result, state untouched. -/
lemma translateBody_dup (cfg : RealtimeTranslatorConfig)
    (e : List Char → Option (List Char)) (s : TranslatorState) (t : List Char)
    (hdup : cfg.skip_duplicates = true) (hd : t = s.last_translated_text) :
    translateBody cfg e s t = some ([], s) := by
  simp only [translateBody, if_pos (⟨hdup, hd⟩ :
    cfg.skip_duplicates = true ∧ t = s.last_translated_text)]

/-- C1 counterexample: starting from an empty cache, translating `"ab"` with
a successful engine caches `"tr"`; the second identical call is discarded by
the last-request duplicate filter: it returns the empty string and leaves
the state untouched — the hit counter stays 0 and the cached result `"tr"`
is not returned, contrary to the claim. -/
theorem c1_counterexample :
    translate_text defaultTranslatorConfig (fun _ => some ['t', 'r'])
        ⟨[], [], 0, 0, true, 0⟩ ['a', 'b'] =
      some (['t', 'r'],
        ⟨[(['a', 'b'], ['t', 'r'])], ['a', 'b'], 0, 1, true, 1⟩) ∧
    translate_text defaultTranslatorConfig (fun _ => some ['t', 'r'])
        ⟨[(['a', 'b'], ['t', 'r'])], ['a', 'b'], 0, 1, true, 1⟩ ['a', 'b'] =
      some ([], ⟨[(['a', 'b'], ['t', 'r'])], ['a', 'b'], 0, 1, true, 1⟩) ∧
    List.lookup ['a', 'b'] [(['a', 'b'], ['t', 'r'])] = some ['t', 'r'] ∧
    ([] : List Char) ≠ ['t', 'r'] := by
  refine ⟨?_, ?_, ?_, ?_⟩ <;> decide

/-- C1 amended: with duplicate skipping enabled (the default), a loaded
model and an engine that does not raise, the second of two successive
`translate_text` calls with identical text is a complete no-op discarded by
the last-request filter: it returns the empty string and leaves the whole
state (cache, hit counter, miss counter, engine-call count) unchanged — in
particular the engine is invoked at most once across the two calls. -/
theorem c1_second_identical_call_discarded (cfg : RealtimeTranslatorConfig)
    (e : List Char → Option (List Char)) (s : TranslatorState) (x : List Char)
    (hdup : cfg.skip_duplicates = true) (hml : s.model_loaded = true)
    (he : ∀ q, (e q).isSome = true) :
    ∃ r1 s1, translate_text cfg e s x = some (r1, s1) ∧
      translate_text cfg e s1 x = some ([], s1) := by
  by_cases hg : x = [] ∨ (pyStrip x).length < cfg.min_text_length
  · exact ⟨[], s, by simp only [translate_text, if_pos hg],
      by simp only [translate_text, if_pos hg]⟩
  · obtain ⟨r1, s1, h1, hl, hm1⟩ :=
      translateBody_total cfg e s (normText cfg x) hml (he _)
    refine ⟨r1, s1, ?_, ?_⟩
    · simp only [translate_text, if_neg hg]
      exact h1
    · simp only [translate_text, if_neg hg]
      exact translateBody_dup cfg e s1 (normText cfg x) hdup hl.symm

/-- Witness for C1 at a concrete run: config defaults, empty initial state,
engine constantly answering `"t"`, text `"hi"` translated twice. -/
theorem c1_witness :
    defaultTranslatorConfig.skip_duplicates = true ∧
    (∃ r1 s1, translate_text defaultTranslatorConfig (fun _ => some ['t'])
        ⟨[], [], 0, 0, true, 0⟩ ['h', 'i'] = some (r1, s1) ∧
      translate_text defaultTranslatorConfig (fun _ => some ['t']) s1
        ['h', 'i'] = some ([], s1)) :=
  ⟨rfl, c1_second_identical_call_discarded defaultTranslatorConfig
    (fun _ => some ['t']) ⟨[], [], 0, 0, true, 0⟩ ['h', 'i'] rfl rfl
    (fun _ => rfl)⟩

/-- C6 counterexample: on engine failure the call returns the stripped text
`"ab"`, not the original input `" ab"` unchanged (the cache is indeed left
empty and only the miss and engine-call counters move). -/
theorem c6_counterexample :
    translate_text defaultTranslatorConfig (fun _ => none)
        ⟨[], [], 0, 0, true, 0⟩ [' ', 'a', 'b'] =
      some (['a', 'b'], ⟨[], [], 0, 1, true, 1⟩) ∧
    (['a', 'b'] : List Char) ≠ [' ', 'a', 'b'] := by
  refine ⟨?_, ?_⟩ <;> decide

/-- C6 amended: on every request that reaches the engine (non-empty
normalized text, not a duplicate, cache miss, model loaded) whose engine
invocation raises, `translate_text` returns the normalized
(stripped-and-truncated) input text, and the state keeps its cache,
`last_translated_text` and hit counter unchanged: only the miss counter and
the engine-call counter are incremented. -/
theorem c6_engine_failure_skips_cache (cfg : RealtimeTranslatorConfig)
    (e : List Char → Option (List Char)) (s : TranslatorState) (x : List Char)
    (hg : ¬(x = [] ∨ (pyStrip x).length < cfg.min_text_length))
    (hd : ¬(cfg.skip_duplicates = true ∧
        normText cfg x = s.last_translated_text))
    (hc : (if cfg.use_cache then
        List.lookup (normText cfg x) s.translation_cache else none) = none)
    (hml : s.model_loaded = true)
    (he : e (normText cfg x) = none) :
    translate_text cfg e s x =
      some (normText cfg x,
        { s with cache_misses := s.cache_misses + 1,
                 engine_calls := s.engine_calls + 1 }) := by
  simp only [translate_text, if_neg hg, translateBody, if_neg hd]
  rw [hc, if_pos hml, he]

/-- Witness for C6 at a concrete failing call: defaults, empty state, engine
always raising, text `"ab"`. -/
theorem c6_witness :
    translate_text defaultTranslatorConfig (fun _ => none)
        ⟨[], [], 0, 0, true, 0⟩ ['a', 'b'] =
      some (normText defaultTranslatorConfig ['a', 'b'],
        ⟨[], [], 0, 0 + 1, true, 0 + 1⟩) :=
  c6_engine_failure_skips_cache defaultTranslatorConfig (fun _ => none)
    ⟨[], [], 0, 0, true, 0⟩ ['a', 'b'] (by decide) (by decide) (by decide)
    rfl rfl

/-- Two texts whose stripped forms agree on their first `max_text_length`
characters normalize identically. -/
lemma normText_eq_of_take_eq (cfg : RealtimeTranslatorConfig)
    (x y : List Char)
    (h : (pyStrip x).take cfg.max_text_length =
         (pyStrip y).take cfg.max_text_length) :
    normText cfg x = normText cfg y := by
  simp only [normText]
  by_cases hx : cfg.max_text_length < (pyStrip x).length <;>
    by_cases hy : cfg.max_text_length < (pyStrip y).length
  · rw [if_pos hx, if_pos hy]
    exact h
  · rw [if_pos hx, if_neg hy, ← List.take_of_length_le (le_of_not_lt hy)]
    exact h
  · rw [if_neg hx, if_pos hy, ← List.take_of_length_le (le_of_not_lt hx)]
    exact h
  · rw [if_neg hx, if_neg hy]
    rw [List.take_of_length_le (le_of_not_lt hx),
      List.take_of_length_le (le_of_not_lt hy)] at h
    exact h

/-- The early-return guard of `translate_text` only depends on the length of
the stripped text. -/
lemma translate_guard_iff (x : List Char) (n : Nat) (hn : 0 < n) :
    (x = [] ∨ (pyStrip x).length < n) ↔ (pyStrip x).length < n := by
  constructor
  · rintro (rfl | h)
    · simpa [show pyStrip ([] : List Char) = [] from rfl] using hn
    · exact h
  · exact Or.inr

/-- C10 counterexample: the input `"    " ++ "a"*497` (501 characters) and
the input `"    " ++ "a"*497 ++ "b"*10` (511 characters) agree on their first
500 characters, yet because `translate_text` strips whitespace before
truncating, they normalize to different cache keys (`"a"*497` versus
`"a"*497 ++ "bbb"`), hence map to different cache entries. -/
theorem c10_counterexample :
    (List.replicate 4 ' ' ++ List.replicate 497 'a').take
        defaultTranslatorConfig.max_text_length =
      ((List.replicate 4 ' ' ++ List.replicate 497 'a')
          ++ List.replicate 10 'b').take
        defaultTranslatorConfig.max_text_length ∧
    normText defaultTranslatorConfig
        (List.replicate 4 ' ' ++ List.replicate 497 'a') ≠
      normText defaultTranslatorConfig
        ((List.replicate 4 ' ' ++ List.replicate 497 'a')
          ++ List.replicate 10 'b') := by
  constructor
  · conv_rhs => rw [List.take_append_of_le_length
      (by simp [defaultTranslatorConfig])]
  · decide

/-- C10 amended: `translate_text` strips whitespace before truncating to
`max_text_length` (500 by default) characters, and its entire behavior —
duplicate filtering, cache key, cache update, translation result — depends
on the input only through that normalized text; consequently any two inputs
whose STRIPPED forms agree on their first 500 characters are treated
identically (same cache entry, and on a cache hit the same cached
translation), while raw inputs agreeing on their first 500 characters need
not be (see the counterexample). -/
theorem c10_truncation_after_strip (e : List Char → Option (List Char))
    (s : TranslatorState) (x y : List Char)
    (h : (pyStrip x).take defaultTranslatorConfig.max_text_length =
         (pyStrip y).take defaultTranslatorConfig.max_text_length) :
    translate_text defaultTranslatorConfig e s x =
      translate_text defaultTranslatorConfig e s y := by
  have hn := normText_eq_of_take_eq defaultTranslatorConfig x y h
  have hlen := congrArg List.length h
  simp only [List.length_take] at hlen
  rw [show defaultTranslatorConfig.max_text_length = 500 from rfl] at hlen
  have hiff : ((pyStrip x).length < defaultTranslatorConfig.min_text_length) ↔
      ((pyStrip y).length < defaultTranslatorConfig.min_text_length) := by
    show (pyStrip x).length < 2 ↔ (pyStrip y).length < 2
    omega
  simp only [translate_text]
  by_cases hgx : x = [] ∨
      (pyStrip x).length < defaultTranslatorConfig.min_text_length
  · have hgy : y = [] ∨
        (pyStrip y).length < defaultTranslatorConfig.min_text_length := by
      rw [translate_guard_iff y _ (by decide)]
      rw [translate_guard_iff x _ (by decide)] at hgx
      exact hiff.mp hgx
    rw [if_pos hgx, if_pos hgy]
  · have hgy : ¬(y = [] ∨
        (pyStrip y).length < defaultTranslatorConfig.min_text_length) := by
      rw [translate_guard_iff y _ (by decide)]
      rw [translate_guard_iff x _ (by decide)] at hgx
      exact fun hy => hgx (hiff.mpr hy)
    rw [if_neg hgx, if_neg hgy, hn]

/-- Witness for C10: `" ab"` and `"ab "` strip to the same text, so the two
calls coincide. -/
theorem c10_witness :
    (pyStrip [' ', 'a', 'b']).take defaultTranslatorConfig.max_text_length =
      (pyStrip ['a', 'b', ' ']).take defaultTranslatorConfig.max_text_length ∧
    translate_text defaultTranslatorConfig (fun _ => some ['t'])
        ⟨[], [], 0, 0, true, 0⟩ [' ', 'a', 'b'] =
      translate_text defaultTranslatorConfig (fun _ => some ['t'])
        ⟨[], [], 0, 0, true, 0⟩ ['a', 'b', ' '] :=
  ⟨by decide, c10_truncation_after_strip (fun _ => some ['t'])
    ⟨[], [], 0, 0, true, 0⟩ [' ', 'a', 'b'] ['a', 'b', ' '] (by decide)⟩

/-- C8: a transcription result accepted by `_filter_transcription` (returned
non-empty, hence recorded in `last_result`) is discarded when it arrives
again verbatim: the filter returns the empty result and leaves the state
unchanged, so two overlapping segments transcribing to identical text yield
one delivered transcription. -/
theorem c8_repeat_suppression (cfg : RealtimeSTTConfig) (s : STTState)
    (t v : List Char) (s' : STTState)
    (h : filter_transcription cfg s t = (v, s')) (hv : v ≠ []) :
    filter_transcription cfg s' v = ([], s') := by
  simp only [filter_transcription] at h
  split_ifs at h with h1 h2 h3
  · cases h; exact absurd rfl hv
  · cases h; exact absurd rfl hv
  · cases h; exact absurd rfl hv
  · cases h
    have hlen : 2 ≤ (pyStrip t).length := by
      push_neg at h1
      exact h1.2
    have hne : pyStrip t ≠ [] := by
      intro hnil
      rw [hnil] at hlen
      simp at hlen
    simp only [filter_transcription, pyStrip_idem]
    rw [if_neg (by push_neg; exact ⟨hne, hlen⟩), if_neg h2]
    simp

/-- Witness for C8: `"hello"` accepted once, then suppressed on its exact
repetition. -/
theorem c8_witness :
    filter_transcription defaultSTTConfig ⟨[], true, 0⟩
        ['h', 'e', 'l', 'l', 'o'] =
      (['h', 'e', 'l', 'l', 'o'], ⟨['h', 'e', 'l', 'l', 'o'], true, 0⟩) ∧
    filter_transcription defaultSTTConfig
        ⟨['h', 'e', 'l', 'l', 'o'], true, 0⟩ ['h', 'e', 'l', 'l', 'o'] =
      ([], ⟨['h', 'e', 'l', 'l', 'o'], true, 0⟩) := by
  have h1 : filter_transcription defaultSTTConfig ⟨[], true, 0⟩
      ['h', 'e', 'l', 'l', 'o'] =
      (['h', 'e', 'l', 'l', 'o'], ⟨['h', 'e', 'l', 'l', 'o'], true, 0⟩) := by
    decide
  exact ⟨h1, c8_repeat_suppression defaultSTTConfig ⟨[], true, 0⟩
    ['h', 'e', 'l', 'l', 'o'] ['h', 'e', 'l', 'l', 'o']
    ⟨['h', 'e', 'l', 'l', 'o'], true, 0⟩ h1 (by decide)⟩

/-- C9: with the defaults (16000 Hz, 1.0 s minimum, 10.0 s maximum), a
segment shorter than 16000 samples makes `_transcribe_audio` return the
empty string with the state — including the model-call counter — untouched
(the model is never consulted and no error is raised); and a segment longer
than 160000 samples is transcribed exactly as its trailing 160000 samples
are: only the most recent 10 seconds reach the model. -/
theorem c9_audio_length_gates :
    (∀ (w : List ℚ → Option (List Char)) (s : STTState) (audio : List ℚ),
      s.model_loaded = true → audio.length < 16000 →
      transcribe_audio defaultSTTConfig w s audio = some ([], s)) ∧
    (∀ (w : List ℚ → Option (List Char)) (s : STTState) (audio : List ℚ),
      160000 < audio.length →
      transcribe_audio defaultSTTConfig w s audio =
        transcribe_audio defaultSTTConfig w s (pySliceLast 160000 audio)) := by
  have hsr : ((defaultSTTConfig.sample_rate : ℕ) : ℚ) = 16000 := by
    norm_num [defaultSTTConfig]
  have hms : maxSamples defaultSTTConfig = 160000 := by
    show (⌊defaultSTTConfig.max_audio_length *
      ((defaultSTTConfig.sample_rate : ℕ) : ℚ)⌋).toNat = 160000
    rw [show defaultSTTConfig.max_audio_length *
        ((defaultSTTConfig.sample_rate : ℕ) : ℚ) = 160000 by
      rw [hsr]; norm_num [defaultSTTConfig]]
    rw [show ⌊(160000 : ℚ)⌋ = 160000 by norm_num]
    rfl
  constructor
  · intro w s audio hml hlen
    have h1 : (audio.length : ℚ) / ((defaultSTTConfig.sample_rate : ℕ) : ℚ)
        < defaultSTTConfig.min_audio_length := by
      rw [hsr, show defaultSTTConfig.min_audio_length = 1 from rfl,
        div_lt_one (by norm_num)]
      exact_mod_cast hlen
    simp only [transcribe_audio, if_pos hml]
    rw [if_pos h1]
  · intro w s audio hlen
    by_cases hml : s.model_loaded = true
    · have hdur : (10 : ℚ) <
          (audio.length : ℚ) / ((defaultSTTConfig.sample_rate : ℕ) : ℚ) := by
        rw [hsr, lt_div_iff₀ (by norm_num)]
        have hc : (160000 : ℚ) < (audio.length : ℚ) := by exact_mod_cast hlen
        linarith
      have hlen2 : (pySliceLast 160000 audio).length = 160000 := by
        simp only [pySliceLast, List.length_drop]
        omega
      have hdur2 : ((pySliceLast 160000 audio).length : ℚ) /
          ((defaultSTTConfig.sample_rate : ℕ) : ℚ) = 10 := by
        rw [hlen2, hsr]
        norm_num
      have hnotmin : ¬((audio.length : ℚ) /
          ((defaultSTTConfig.sample_rate : ℕ) : ℚ)
            < defaultSTTConfig.min_audio_length) := by
        rw [show defaultSTTConfig.min_audio_length = (1 : ℚ) from rfl]
        intro hcon
        linarith
      have hgtmax : (audio.length : ℚ) /
          ((defaultSTTConfig.sample_rate : ℕ) : ℚ)
            > defaultSTTConfig.max_audio_length := by
        rw [show defaultSTTConfig.max_audio_length = (10 : ℚ) from rfl]
        exact hdur
      have hnotmin2 : ¬(((pySliceLast 160000 audio).length : ℚ) /
          ((defaultSTTConfig.sample_rate : ℕ) : ℚ)
            < defaultSTTConfig.min_audio_length) := by
        rw [hdur2, show defaultSTTConfig.min_audio_length = (1 : ℚ) from rfl]
        norm_num
      have hnotmax2 : ¬(((pySliceLast 160000 audio).length : ℚ) /
          ((defaultSTTConfig.sample_rate : ℕ) : ℚ)
            > defaultSTTConfig.max_audio_length) := by
        rw [hdur2, show defaultSTTConfig.max_audio_length = (10 : ℚ) from rfl]
        norm_num
      have hL : transcribe_audio defaultSTTConfig w s audio =
          (match w (pySliceLast 160000 audio) with
           | none => some ([], { s with model_calls := s.model_calls + 1 })
           | some raw => some (filter_transcription defaultSTTConfig
               { s with model_calls := s.model_calls + 1 } (pyStrip raw))) := by
        simp only [transcribe_audio, if_pos hml]
        rw [if_neg hnotmin, if_pos hgtmax, hms]
      have hR : transcribe_audio defaultSTTConfig w s
          (pySliceLast 160000 audio) =
          (match w (pySliceLast 160000 audio) with
           | none => some ([], { s with model_calls := s.model_calls + 1 })
           | some raw => some (filter_transcription defaultSTTConfig
               { s with model_calls := s.model_calls + 1 } (pyStrip raw))) := by
        simp only [transcribe_audio, if_pos hml]
        rw [if_neg hnotmin2, if_neg hnotmax2]
      rw [hL, hR]
    · simp only [transcribe_audio]
      rw [if_neg hml, if_neg hml]

/-- Witness for C9: a one-sample segment is dropped silently; a
160001-sample segment transcribes exactly as its last 160000 samples. -/
theorem c9_witness :
    transcribe_audio defaultSTTConfig (fun _ => some []) ⟨[], true, 0⟩
        [0] = some ([], ⟨[], true, 0⟩) ∧
    transcribe_audio defaultSTTConfig (fun _ => some []) ⟨[], true, 0⟩
        (List.replicate 160001 (0 : ℚ)) =
      transcribe_audio defaultSTTConfig (fun _ => some []) ⟨[], true, 0⟩
        (pySliceLast 160000 (List.replicate 160001 (0 : ℚ))) := by
  obtain ⟨ha, hb⟩ := c9_audio_length_gates
  exact ⟨ha (fun _ => some []) ⟨[], true, 0⟩ [0] rfl (by norm_num),
         hb (fun _ => some []) ⟨[], true, 0⟩ (List.replicate 160001 0)
           (by simp only [List.length_replicate]; norm_num)⟩
